import Mathlib

/-!
Verification development for the zero-trust MCP gateway
(`zero_trust_mcp_gateway`): a shallow embedding, in Lean 4, of the
policy engine, redaction engine, token-bucket rate limiter, attack
detection, and the six-layer enforcement pipeline, together with
theorems settling the specification claims about them.

Modelling conventions:
* JSON-shaped Python values are modelled by `JValue` (null, bool, int,
  str, list, tuple, dict).  JSON floats are not modelled: every claim
  under study treats numbers as opaque atoms that redaction and
  matching pass through unchanged, and `Int` covers that role.
  Strings are modelled as `List Char` (Python `str` indexing and `len`
  count code points, as does `List Char`).
* Python dicts are modelled as insertion-ordered key/value lists
  (`JKVs`); `dict.get` is first-match lookup.
* Machine floats in the token bucket are modelled as exact rationals
  (`ℚ`); the claims about the limiter concern its real-number
  semantics, not rounding.
* The regular expressions fixed in the source (`EMAIL_RE`, `SQLI_RE`,
  `TRAVERSAL_RE`, `SSRF_RE`) are embedded as explicit backtracking
  matchers mirroring Python `re` semantics (leftmost match, greedy
  quantifiers with backtracking, word boundaries).  The Python `\w` class is
  Unicode-aware; the embedding covers the ASCII fragment plus the
  non-ASCII characters that actually occur in this development
  ('â' is a Unicode letter and hence a word character; '€' and '¦'
  are symbols and are not).
* User-supplied regex patterns inside policy constraints
  (`Constraint.pattern`) are a parameter of the embedding
  (`reMatch`), since they are arbitrary run-time data.
* The phone-number substitution (`PHONE_RE.sub`) is likewise a
  parameter (`phoneSub`): every claim under study fixes
  `pii_phones = False`, on which path the source never invokes it.
-/

/-! ## JSON-shaped values (the `Any` arguments/results of the gateway) -/

mutual
/-- A JSON-shaped Python value as handled by `redaction.py`,
`detect_attacks.py` and `engine.py`: `None`, `bool`, `int`, `str`,
`list`, `tuple` or `dict` with string keys. -/
inductive JValue where
  | null : JValue
  | bool (b : Bool) : JValue
  | int (n : Int) : JValue
  | str (s : List Char) : JValue
  | list (xs : JList) : JValue
  | tuple (xs : JList) : JValue
  | dict (kvs : JKVs) : JValue
  deriving DecidableEq, Repr

/-- A list of JSON-shaped values. -/
inductive JList where
  | nil : JList
  | cons (hd : JValue) (tl : JList) : JList
  deriving DecidableEq, Repr

/-- An insertion-ordered string-keyed mapping of JSON-shaped values
(a Python `dict[str, Any]`). -/
inductive JKVs where
  | nil : JKVs
  | cons (k : String) (v : JValue) (tl : JKVs) : JKVs
  deriving DecidableEq, Repr
end

/-- View a `JList` as an ordinary Lean list (used only to state theorems). -/
def JList.toList : JList → List JValue
  | .nil => []
  | .cons v tl => v :: tl.toList

/-- View a `JKVs` as an ordinary Lean association list (used only to state theorems). -/
def JKVs.toList : JKVs → List (String × JValue)
  | .nil => []
  | .cons k v tl => (k, v) :: tl.toList

/-- Python `dict.get(k)`: first entry with the given key, else `None`. -/
def JKVs.get : JKVs → String → Option JValue
  | .nil, _ => none
  | .cons k v tl, key => if k = key then some v else tl.get key

/-- Keys of a dict in insertion order (Python `dict.keys()`). -/
def JKVs.keys : JKVs → List String
  | .nil => []
  | .cons k _ tl => k :: tl.keys

/-- Number of entries (Python `len(d)`). -/
def JKVs.length : JKVs → Nat
  | .nil => 0
  | .cons _ _ tl => tl.length + 1

mutual
/-- Python `==` on JSON-shaped values: `True == 1` and `False == 0`
(bool is an int subclass), lists/tuples compare elementwise and never
equal each other, dicts compare as unordered key/value mappings. -/
def pyEq : JValue → JValue → Bool
  | .null, .null => true
  | .bool a, .bool b => a == b
  | .bool a, .int n => (if a then (1 : Int) else 0) == n
  | .int n, .bool a => n == (if a then (1 : Int) else 0)
  | .int m, .int n => m == n
  | .str s, .str t => s == t
  | .list xs, .list ys => pyEqList xs ys
  | .tuple xs, .tuple ys => pyEqList xs ys
  | .dict a, .dict b => a.length == b.length && pyEqDict a b
  | _, _ => false

/-- Elementwise Python `==` on lists. -/
def pyEqList : JList → JList → Bool
  | .nil, .nil => true
  | .cons x xs, .cons y ys => pyEq x y && pyEqList xs ys
  | _, _ => false

/-- Every entry of the first dict is present (by key) in the second with
a `==`-equal value; with the length check this is Python dict equality. -/
def pyEqDict : JKVs → JKVs → Bool
  | .nil, _ => true
  | .cons k v tl, b =>
      (match b.get k with
       | some w => pyEq v w
       | none => false) && pyEqDict tl b
end

/-! ## Character classes and the `EMAIL_RE` matcher (`redaction.py` lines 8, 34-35)

`EMAIL_RE = re.compile(r"\b[A-Z0-9._%+-]+@[A-Z0-9.-]+\.[A-Z]{2,}\b", re.IGNORECASE)`

The embedding implements Python `re.sub` for this fixed pattern:
scan positions left to right; at each position attempt a match
(greedy sub-parts with backtracking); replace non-overlapping matches
with `[REDACTED_EMAIL]` and resume after the matched span. -/

/-- Python `\w` (word character) on the character set of this development:
ASCII alphanumerics and underscore, plus 'â' (a Unicode letter and thus
a word character in Python; '€' and '¦' are symbols and are not). -/
def isWordChar (c : Char) : Bool :=
  c.isAlphanum || c == '_' || c == 'â'

/-- The class `[A-Z0-9._%+-]` under `re.IGNORECASE`. -/
def isLocalChar (c : Char) : Bool :=
  c.isAlphanum || c == '.' || c == '_' || c == '%' || c == '+' || c == '-'

/-- The class `[A-Z0-9.-]` under `re.IGNORECASE`. -/
def isDomainChar (c : Char) : Bool :=
  c.isAlphanum || c == '.' || c == '-'

/-- The class `[A-Z]` under `re.IGNORECASE`: ASCII letters. -/
def isTldChar (c : Char) : Bool :=
  c.isAlpha

/-- Python `\b`: a word boundary holds between two (possibly absent)
adjacent characters iff exactly one side is a word character. -/
def wordBoundary (prev next : Option Char) : Bool :=
  (match prev with | some c => isWordChar c | none => false)
    != (match next with | some c => isWordChar c | none => false)

/-- Longest prefix satisfying `p` together with the remaining suffix. -/
def spanList (p : Char → Bool) : List Char → List Char × List Char
  | [] => ([], [])
  | c :: cs =>
      if p c then
        let (l, r) := spanList p cs
        (c :: l, r)
      else ([], c :: cs)

/-- Backtracking over the greedy domain part `[A-Z0-9.-]+`: try the split
length `k` (longest first, as the regex engine does), requiring a literal
'.' then a maximal TLD `[A-Z]{2,}` followed by `\b`.  `d` is the maximal
domain-class run, `rest` the text after it.  Returns the total length
`k + 1 + |tld|` consumed after the '@' on success.

Only the maximal TLD run can satisfy the trailing `\b` (a shorter one is
followed by a letter, which is a word character), so the engine TLD
backtracking needs no search here. -/
def tryDomainSplit (d rest : List Char) : Nat → Option Nat
  | 0 => none
  | k + 1 =>
      let after := d.drop (k + 1) ++ rest
      match after with
      | '.' :: after2 =>
          let (tld, r4) := spanList isTldChar after2
          if tld.length ≥ 2
              && !(match r4.head? with | some c => isWordChar c | none => false) then
            some ((k + 1) + 1 + tld.length)
          else tryDomainSplit d rest k
      | _ => tryDomainSplit d rest k

/-- Attempt to match `EMAIL_RE` at the head of `cs`, where `prev` is the
character just before `cs` in the full text.  Returns the match length.

The local part `[A-Z0-9._%+-]+` needs no backtracking: '@' is not in the
class, so only the maximal run can be followed by '@'. -/
def tryEmail (prev : Option Char) (cs : List Char) : Option Nat :=
  if !wordBoundary prev cs.head? then none
  else
    let (lp, r1) := spanList isLocalChar cs
    if lp.isEmpty then none
    else
      match r1 with
      | '@' :: r2 =>
          let (d, r3) := spanList isDomainChar r2
          match tryDomainSplit d r3 d.length with
          | some m => some (lp.length + 1 + m)
          | none => none
      | _ => none

/-- The replacement text `[REDACTED_EMAIL]`. -/
def redactedEmailMarker : List Char :=
  ['[', 'R', 'E', 'D', 'A', 'C', 'T', 'E', 'D', '_', 'E', 'M', 'A', 'I', 'L', ']']

/-- One scan step of `EMAIL_RE.sub`: `fuel` bounds the number of steps
(each step consumes at least one character, so the initial length
suffices); `prev` is the previous character of the *original* text,
since `re.sub` matches entirely on the input string. -/
def emailSubGo : Nat → Option Char → List Char → List Char
  | 0, _, cs => cs
  | _ + 1, _, [] => []
  | fuel + 1, prev, c :: rest =>
      match tryEmail prev (c :: rest) with
      | some n =>
          redactedEmailMarker
            ++ emailSubGo fuel ((c :: rest).take n).getLast? ((c :: rest).drop n)
      | none => c :: emailSubGo fuel (some c) rest

/-- Embeds `EMAIL_RE.sub("[REDACTED_EMAIL]", s)` (`redaction.py` line 35). -/
def emailSub (s : List Char) : List Char :=
  emailSubGo s.length none s

/-! ## The redaction engine (`redaction.py`) -/

/-- Embeds `DEFAULT_DENY_KEYS` (`redaction.py` line 6). -/
def DEFAULT_DENY_KEYS : List String :=
  ["password", "token", "secret", "api_key", "authorization"]

/-- Python `str.lower` on the character list of a string. -/
def lowerChars (s : String) : List Char :=
  s.toList.map Char.toLower

/-- Embeds `_should_redact_key` (`redaction.py` lines 12-14): case-insensitive
exact membership of the key in the deny-key list
(`k.lower() == dk.lower()` compared characterwise). -/
def shouldRedactKey (key : String) (deny_keys : List String) : Bool :=
  deny_keys.any (fun dk => lowerChars key == lowerChars dk)

/-- Python `s[:m]` for a possibly negative `m`. -/
def pySlice (m : Int) (s : List Char) : List Char :=
  if 0 ≤ m then s.take m.toNat else s.take ((s.length : Int) + m).toNat

/-- The three characters the source appends on truncation
(`redaction.py` line 33; the file literally contains the bytes
C3 A2 E2 82 AC C2 A6, i.e. the characters 'â', '€', '¦'). -/
def truncationMarker : List Char := ['â', '€', '¦']

/-- String truncation (`redaction.py` lines 31-33): when
`max_string_len` is truthy and the string is longer, keep the first
`max_string_len` characters and append the marker. -/
def truncateStr (max_string_len : Int) (s : List Char) : List Char :=
  if max_string_len ≠ 0 ∧ (s.length : Int) > max_string_len then
    pySlice max_string_len s ++ truncationMarker
  else s

/-- The replacement written for deny-listed keys, `"[REDACTED]"`. -/
def redactedMarker : List Char :=
  ['[', 'R', 'E', 'D', 'A', 'C', 'T', 'E', 'D', ']']

/-- The effective deny-key list: `deny_keys = deny_keys or DEFAULT_DENY_KEYS`
(`redaction.py` line 25).  Both `None` and the empty list are falsy. -/
def effectiveDenyKeys : Option (List String) → List String
  | none => DEFAULT_DENY_KEYS
  | some l => if l.isEmpty then DEFAULT_DENY_KEYS else l

/-- String redaction (`redaction.py` lines 30-38): truncate, then
substitute emails when `pii_emails`, then phones when `pii_phones`
(the phone substitution is the `phoneSub` parameter). -/
def redactStr (phoneSub : List Char → List Char) (pii_emails pii_phones : Bool)
    (max_string_len : Int) (s : List Char) : List Char :=
  let s1 := truncateStr max_string_len s
  let s2 := if pii_emails then emailSub s1 else s1
  if pii_phones then phoneSub s2 else s2

mutual
/-- Recursive body of `redact_value` (`redaction.py` lines 27-65) after
the effective deny-key list has been resolved (each recursive call in
the source passes the already-effective non-empty list, on which
`deny_keys or DEFAULT_DENY_KEYS` is the identity). -/
def redactGo (phoneSub : List Char → List Char) (dks : List String)
    (pii_emails pii_phones : Bool) (max_string_len : Int) : JValue → JValue
  | .null => .null
  | .str s => .str (redactStr phoneSub pii_emails pii_phones max_string_len s)
  | .bool b => .bool b
  | .int n => .int n
  | .list xs => .list (redactList phoneSub dks pii_emails pii_phones max_string_len xs)
  | .tuple xs => .tuple (redactList phoneSub dks pii_emails pii_phones max_string_len xs)
  | .dict kvs => .dict (redactKVs phoneSub dks pii_emails pii_phones max_string_len kvs)

/-- Elementwise redaction of lists/tuples (`redaction.py` lines 43-50). -/
def redactList (phoneSub : List Char → List Char) (dks : List String)
    (pii_emails pii_phones : Bool) (max_string_len : Int) : JList → JList
  | .nil => .nil
  | .cons v tl =>
      .cons (redactGo phoneSub dks pii_emails pii_phones max_string_len v)
        (redactList phoneSub dks pii_emails pii_phones max_string_len tl)

/-- Entrywise redaction of dicts (`redaction.py` lines 52-65): a
deny-listed string key maps to `"[REDACTED]"` without recursing,
any other entry recurses on the value. -/
def redactKVs (phoneSub : List Char → List Char) (dks : List String)
    (pii_emails pii_phones : Bool) (max_string_len : Int) : JKVs → JKVs
  | .nil => .nil
  | .cons k v tl =>
      (if shouldRedactKey k dks then
        JKVs.cons k (.str redactedMarker)
      else
        JKVs.cons k (redactGo phoneSub dks pii_emails pii_phones max_string_len v))
        (redactKVs phoneSub dks pii_emails pii_phones max_string_len tl)
end

/-- Embeds `redact_value` (`redaction.py` lines 17-77) on JSON-shaped values:
resolve the effective deny keys, then rewrite the tree.  (The trailing
fallback branch of the source stringifies non-JSON objects and is
outside the JSON-shaped domain.) -/
def redact_value (phoneSub : List Char → List Char)
    (deny_keys : Option (List String)) (pii_emails pii_phones : Bool)
    (max_string_len : Int) (v : JValue) : JValue :=
  redactGo phoneSub (effectiveDenyKeys deny_keys) pii_emails pii_phones max_string_len v

/-! ## Attack detection (`layers/detect_attacks.py`) -/

/-- Match a literal word case-insensitively at the head of the text,
returning the remaining suffix. -/
def matchCI : List Char → List Char → Option (List Char)
  | [], cs => some cs
  | _ :: _, [] => none
  | k :: ks, c :: cs => if k.toLower == c.toLower then matchCI ks cs else none

/-- Does `\b<lit>\b` (case-insensitive) match at the head of `cs`?
All literals used start and end with alphanumerics, so the leading
boundary is `wordBoundary prev head` and the trailing one requires the
next character to be a non-word character (or the end). -/
def litHereCI (lit : List Char) (prev : Option Char) (cs : List Char) : Bool :=
  wordBoundary prev cs.head? &&
    match matchCI lit cs with
    | some rest => !(match rest.head? with | some c => isWordChar c | none => false)
    | none => false

/-- Scan for `\b(alt1|alt2|...)\b`, case-insensitive, anywhere in the text. -/
def litSearchCI (lits : List (List Char)) : Option Char → List Char → Bool
  | _, [] => false
  | prev, c :: rest =>
      lits.any (fun l => litHereCI l prev (c :: rest)) || litSearchCI lits (some c) rest

/-- Embeds `SQLI_RE.search` (`detect_attacks.py` line 10):
`(?i)\b(select|union|insert|update|delete|drop|alter)\b`. -/
def sqliSearch (s : List Char) : Bool :=
  litSearchCI
    [String.toList "select", String.toList "union", String.toList "insert",
     String.toList "update", String.toList "delete", String.toList "drop",
     String.toList "alter"] none s

/-- Substring search. -/
def hasSubstr (pat : List Char) : List Char → Bool
  | [] => pat.isPrefixOf []
  | c :: rest => pat.isPrefixOf (c :: rest) || hasSubstr pat rest

/-- Embeds `TRAVERSAL_RE.search` (`detect_attacks.py` line 11): `(\.\./|\.\.\\)`. -/
def traversalSearch (s : List Char) : Bool :=
  hasSubstr ['.', '.', '/'] s || hasSubstr ['.', '.', '\\'] s

/-- Embeds `SSRF_RE.search` (`detect_attacks.py` line 12):
`(?i)\b(169\.254\.169\.254|localhost|127\.0\.0\.1)\b`. -/
def ssrfSearch (s : List Char) : Bool :=
  litSearchCI
    [String.toList "169.254.169.254", String.toList "localhost",
     String.toList "127.0.0.1"] none s

/-- One haystack string is suspicious (`detect_attacks.py` line 34). -/
def isSuspicious (s : List Char) : Bool :=
  sqliSearch s || traversalSearch s || ssrfSearch s

mutual
/-- Embeds `_collect_strings` (`detect_attacks.py` lines 15-23): collect every
string that is the direct dict value of a key of interest, walking
dicts and lists (tuples and other values are not walked). -/
def collectStrings (keys : List String) : JValue → List (List Char)
  | .dict kvs => collectKVs keys kvs
  | .list xs => collectList keys xs
  | _ => []

/-- Per-entry collection for dicts: yield the value itself when the key
is of interest and the value is a string, then recurse into the value. -/
def collectKVs (keys : List String) : JKVs → List (List Char)
  | .nil => []
  | .cons k v tl =>
      (match v with
       | .str s => if keys.contains k then [s] else []
       | _ => []) ++ collectStrings keys v ++ collectKVs keys tl

/-- Elementwise collection for lists.  A string that is an element of a
list reaches `_collect_strings` directly and falls through both
`isinstance` branches, yielding nothing. -/
def collectList (keys : List String) : JList → List (List Char)
  | .nil => []
  | .cons v tl => collectStrings keys v ++ collectList keys tl
end

/-! ## Token-bucket rate limiter (`rate_limit.py`) -/

/-- Python `int()` truncation toward zero on a rational (Lean `Int`
division truncates toward zero, as Python `int()` does). -/
def pyInt (q : ℚ) : Int :=
  q.num / (q.den : Int)

/-- Embeds `TokenBucket` (`rate_limit.py` lines 7-12), with floats modelled as
exact rationals. -/
structure TokenBucket where
  capacity : ℚ
  refill_per_sec : ℚ
  tokens : ℚ
  last_ts : ℚ
  deriving DecidableEq, Repr

/-- Embeds `TokenBucket.take` (`rate_limit.py` lines 14-25): lazy refill capped
at capacity, then consume `n` tokens if available.  `now` is the value
`time.time()` returns during the call; the updated bucket is returned
alongside the success flag and `int(self.tokens)`. -/
def TokenBucket.take (b : TokenBucket) (now : ℚ) (n : Int) : Bool × Int × TokenBucket :=
  let elapsed := max 0 (now - b.last_ts)
  let tokens1 := min b.capacity (b.tokens + elapsed * b.refill_per_sec)
  if (n : ℚ) ≤ tokens1 then
    (true, pyInt (tokens1 - n), ⟨b.capacity, b.refill_per_sec, tokens1 - n, now⟩)
  else
    (false, pyInt tokens1, ⟨b.capacity, b.refill_per_sec, tokens1, now⟩)

/-- Telemetry returned by `InMemoryRateLimiter.allow` (`rate_limit.py` line 46). -/
structure RateMeta where
  limit : Int
  burst : Int
  remaining : Int
  deriving DecidableEq, Repr

/-- The bucket store of `InMemoryRateLimiter`: a string-keyed map. -/
def BucketStore : Type := List (String × TokenBucket)

/-- First bucket stored under the key, if any. -/
def storeGet : List (String × TokenBucket) → String → Option TokenBucket
  | [], _ => none
  | (k, b) :: tl, key => if k = key then some b else storeGet tl key

/-- Store a bucket under a key (replace the existing entry or append). -/
def storeSet : List (String × TokenBucket) → String → TokenBucket → List (String × TokenBucket)
  | [], key, b => [(key, b)]
  | (k, b0) :: tl, key, b => if k = key then (k, b) :: tl else (k, b0) :: storeSet tl key b

/-- Embeds `InMemoryRateLimiter.allow` (`rate_limit.py` lines 36-47): derive
capacity and refill rate from the config, create a full bucket on first
sight of the key, take one token.  Returns the flag, the telemetry and
the updated store. -/
def limiterAllow (st : List (String × TokenBucket)) (key : String)
    (limit_per_minute burst : Int) (now : ℚ) : Bool × RateMeta × List (String × TokenBucket) :=
  let cap : Int := max 1 (if burst ≠ 0 then burst else limit_per_minute)
  let refill : ℚ := max (1 / 10) ((limit_per_minute : ℚ) / 60)
  let b : TokenBucket :=
    match storeGet st key with
    | some b => b
    | none => ⟨(cap : ℚ), refill, (cap : ℚ), now⟩
  match b.take now 1 with
  | (ok, remaining, b2) =>
      (ok, ⟨limit_per_minute, if burst ≠ 0 then burst else cap, max 0 remaining⟩,
        storeSet st key b2)

/-! ## Decisions (`decisions.py`) -/

/-- Embeds `Decision` (`decisions.py` lines 6-12). -/
structure Decision where
  allowed : Bool
  reason : String
  policy_id : String
  remediation : Option String
  layer : Option String
  deriving DecidableEq, Repr

/-! ## Policy schema (`policy/schema.py`) -/

/-- Embeds `Constraint` (`schema.py` lines 11-23).  The `type` tag is one of
`string`, `integer`, `number`, `boolean`; numeric bounds are rationals
(floats in the source). -/
structure Constraint where
  type : String
  description : Option String
  pattern : Option String
  enum : Option (List JValue)
  min : Option ℚ
  max : Option ℚ
  required : Option Bool
  deriving Repr

/-- Embeds `AllowRule` (`schema.py` lines 26-31); `constraints` is an
insertion-ordered mapping. -/
structure AllowRule where
  tool : String
  constraints : List (String × Constraint)
  roles : Option (List String)
  deriving Repr

/-- Embeds `DenyRule` (`schema.py` lines 34-37). -/
structure DenyRule where
  tool : String
  condition : Option JKVs
  reason : String
  deriving Repr

/-- Embeds `ValidateConfig` (`schema.py` lines 40-42); `max_arg_bytes = 0`
means no limit. -/
structure ValidateConfig where
  reject_unknown_args : Bool
  max_arg_bytes : Int
  deriving DecidableEq, Repr

/-- Embeds `RateLimitConfig` (`schema.py` lines 45-49); `scope` is one of
`actor`, `session`, `tool`, `actor+tool`. -/
structure RateLimitConfig where
  enabled : Bool
  limit_per_minute : Int
  burst : Int
  scope : String
  deriving DecidableEq, Repr

/-- Embeds `DetectAttacksConfig` (`schema.py` lines 52-55); `on_detect` is
`deny` or `allow`. -/
structure DetectAttacksConfig where
  enabled : Bool
  on_detect : String
  fields : List String
  deriving DecidableEq, Repr

/-- Embeds `RedactConfig` (`schema.py` lines 58-65). -/
structure RedactConfig where
  enabled : Bool
  deny_keys : List String
  pii_emails : Bool
  pii_phones : Bool
  max_string_len : Int
  deriving DecidableEq, Repr

/-- Embeds `AuditConfig` (`schema.py` lines 68-71). -/
structure AuditConfig where
  enabled : Bool
  include_result : Bool
  include_argument_values : Bool
  deriving DecidableEq, Repr

/-- Embeds `Policy` (`schema.py` lines 74-98); `default` is `allow` or `deny`. -/
structure Policy where
  policy_id : String
  version : String
  default : String
  allow_rules : List AllowRule
  deny_rules : List DenyRule
  validate_cfg : Option ValidateConfig
  rate_limit : Option RateLimitConfig
  detect_attacks : Option DetectAttacksConfig
  redact : Option RedactConfig
  audit : Option AuditConfig
  deriving Repr

/-! ## The invocation record (`models.py`) -/

/-- Embeds `ToolCall` (`models.py` lines 9-37).  The `context`, `auth`,
`source` and `timestamp` fields are omitted: no layer under study reads
them.  `arguments_serializable` records whether `json.dumps` succeeds
on the real Python argument values; `JKVs` models the JSON-shaped
fragment (a non-serializable value, e.g. a set, has no JSON model, and
none of the operations under study inspect such a value other than
through `json.dumps` failing). -/
structure ToolCall where
  tool_name : String
  arguments : JKVs
  actor : Option String
  roles : List String
  request_id : Option String
  client : Option JKVs
  arguments_serializable : Bool
  deriving Repr

/-- Hexadecimal digit used by `\u00XX` escapes (lowercase, as
`json.dumps` emits). -/
def hexDigit (n : Nat) : Char :=
  Char.ofNat (if n < 10 then 48 + n else 87 + n)

/-- The backslash character. -/
def bsChar : Char := '\\'

/-- The two-character short escapes of `json.dumps`:
newline, tab, carriage return, backspace (0x08) and form feed (0x0c). -/
def shortEscape (c : Char) : Option Char :=
  if c == '\n' then some 'n'
  else if c == '\t' then some 't'
  else if c == '\r' then some 'r'
  else if c.toNat == 8 then some 'b'
  else if c.toNat == 12 then some 'f'
  else none

/-- Escape one character as `json.dumps` with `ensure_ascii=False`
does: `"` and `\` are backslash-escaped, the control characters get
their short or `\u00XX` forms, everything else is emitted raw. -/
def jsonEscapeChar (c : Char) : List Char :=
  if c == '"' || c == bsChar then [bsChar, c]
  else
    match shortEscape c with
    | some e => [bsChar, e]
    | none =>
        if c.toNat < 32 then
          [bsChar, 'u', '0', '0', hexDigit (c.toNat / 16), hexDigit (c.toNat % 16)]
        else [c]

/-- Comma-space separator of `json.dumps` default formatting. -/
def jsonComma : List Char := [',', ' ']

mutual
/-- Embeds `json.dumps(v, ensure_ascii=False)` on JSON-shaped values (tuples
serialize as arrays). -/
def dumpsJ : JValue → List Char
  | .null => String.toList "null"
  | .bool true => String.toList "true"
  | .bool false => String.toList "false"
  | .int n => (toString n).toList
  | .str s => '"' :: (s.map jsonEscapeChar).flatten ++ ['"']
  | .list xs => '[' :: dumpsList xs ++ [']']
  | .tuple xs => '[' :: dumpsList xs ++ [']']
  | .dict kvs => '\x7b' :: dumpsKVs kvs ++ ['\x7d']

/-- Serialize list elements joined by `", "`. -/
def dumpsList : JList → List Char
  | .nil => []
  | .cons v .nil => dumpsJ v
  | .cons v (.cons w tl) => dumpsJ v ++ jsonComma ++ dumpsList (.cons w tl)

/-- Serialize dict entries `"key": value` joined by `", "`. -/
def dumpsKVs : JKVs → List Char
  | .nil => []
  | .cons k v .nil => dumpsEntry k v
  | .cons k v (.cons k2 w tl) => dumpsEntry k v ++ jsonComma ++ dumpsKVs (.cons k2 w tl)

/-- One dict entry. -/
def dumpsEntry (k : String) (v : JValue) : List Char :=
  '"' :: (k.toList.map jsonEscapeChar).flatten ++ ['"', ':', ' '] ++ dumpsJ v
end

/-- UTF-8 byte length of a string (`len(... .encode("utf-8"))`). -/
def utf8Len (s : List Char) : Nat :=
  (s.map Char.utf8Size).sum

/-- Embeds `ToolCall.arguments_size_bytes` (`models.py` lines 44-52): the UTF-8
length of the JSON encoding of the arguments, or the sentinel
`1_000_000_000` when the arguments are not JSON-serializable. -/
def ToolCall.arguments_size_bytes (tc : ToolCall) : Nat :=
  if tc.arguments_serializable then utf8Len (dumpsJ (.dict tc.arguments))
  else 1000000000

/-! ## Policy engine (`policy/engine.py`)

`reMatch pattern value` stands for Python `re.match(pattern, value)`
on a user-supplied pattern: `none` models `re.error` on compiling the
pattern, `some b` whether the prefix-anchored match succeeds. -/

/-- The condition loop of `_match_deny` (`engine.py` lines 110-114):
every pair must satisfy `arguments.get(k) == v`, a missing key reading
as `None`. -/
def condMatches (args : JKVs) : JKVs → Bool
  | .nil => true
  | .cons k v tl =>
      pyEq (match args.get k with | some w => w | none => .null) v && condMatches args tl

/-- Embeds `_match_deny` (`engine.py` lines 102-119): first deny rule whose
tool equals the invocation tool and whose condition (if any) is fully
satisfied; returns its reason. -/
def matchDeny : List DenyRule → ToolCall → Option String
  | [], _ => none
  | r :: rest, tc =>
      if r.tool ≠ tc.tool_name then matchDeny rest tc
      else
        match r.condition with
        | none => some r.reason
        | some cond =>
            if condMatches tc.arguments cond then some r.reason else matchDeny rest tc

/-- The `required` pass of `_validate_constraints` (`engine.py` lines
139-142): first constraint marked required whose name is absent. -/
def requiredErr (constraints : List (String × Constraint)) (args : JKVs) : Option String :=
  match constraints with
  | [] => none
  | (name, c) :: rest =>
      if c.required = some true ∧ (args.get name).isNone then
        some ("Missing required argument: " ++ name)
      else requiredErr rest args

/-- The typed check of `_validate_constraints` (`engine.py` lines
150-191) for one present value.  (The interpolated reason
strings quote the argument name and echo enums and bounds; the
embedding keeps fixed reason texts per failure class, which no claim
inspects.) -/
def constraintErr (reMatch : String → List Char → Option Bool)
    (name : String) (c : Constraint) (value : JValue) : Option String :=
  match value with
  | .null => some ("Argument " ++ name ++ " must not be null")
  | _ =>
    if c.type = "string" then
      match value with
      | .str s =>
          (match c.pattern with
           | some p =>
               if p = "" then
                 -- an empty pattern is falsy, so the source skips the check
                 (match c.enum with
                  | some es =>
                      if es.any (fun e => pyEq value e) then none
                      else some ("Argument " ++ name ++ " must be one of enum")
                  | none => none)
               else
                 (match reMatch p s with
                  | none => some ("Invalid regex pattern in policy for " ++ name)
                  | some false => some ("Argument " ++ name ++ " does not match pattern")
                  | some true =>
                      (match c.enum with
                       | some es =>
                           if es.any (fun e => pyEq value e) then none
                           else some ("Argument " ++ name ++ " must be one of enum")
                       | none => none))
           | none =>
               (match c.enum with
                | some es =>
                    if es.any (fun e => pyEq value e) then none
                    else some ("Argument " ++ name ++ " must be one of enum")
                | none => none))
      | _ => some ("Argument " ++ name ++ " must be a string")
    else if c.type = "boolean" then
      match value with
      | .bool _ => none
      | _ => some ("Argument " ++ name ++ " must be a boolean")
    else if c.type = "integer" ∨ c.type = "number" then
      match value with
      | .int n =>
          let num : ℚ := (n : ℚ)
          (match c.min with
           | some lo =>
               if num < lo then some ("Argument " ++ name ++ " must be at least min")
               else
                 (match c.max with
                  | some hi =>
                      if hi < num then some ("Argument " ++ name ++ " must be at most max")
                      else none
                  | none => none)
           | none =>
               (match c.max with
                | some hi =>
                    if hi < num then some ("Argument " ++ name ++ " must be at most max")
                    else none
                | none => none))
      | _ =>
          if c.type = "integer" then some ("Argument " ++ name ++ " must be an integer")
          else some ("Argument " ++ name ++ " must be a number")
    else some ("Unsupported constraint type for " ++ name)

/-- The presence pass of `_validate_constraints` (`engine.py` lines
144-191): first typed-check failure over constraints whose name is
present in the arguments. -/
def typedErr (reMatch : String → List Char → Option Bool)
    (constraints : List (String × Constraint)) (args : JKVs) : Option String :=
  match constraints with
  | [] => none
  | (name, c) :: rest =>
      match args.get name with
      | none => typedErr reMatch rest args
      | some v =>
          match constraintErr reMatch name c v with
          | some e => some e
          | none => typedErr reMatch rest args

/-- Embeds `_validate_constraints` (`engine.py` lines 138-193): the required
pass runs first, then the typed pass. -/
def validateConstraints (reMatch : String → List Char → Option Bool)
    (constraints : List (String × Constraint)) (args : JKVs) : Option String :=
  match requiredErr constraints args with
  | some e => some e
  | none => typedErr reMatch constraints args

/-- Embeds `_match_allow` (`engine.py` lines 121-136): first allow rule whose
tool matches; an empty role intersection or a constraint-validation
failure is reported as the second component. -/
def matchAllow (reMatch : String → List Char → Option Bool) :
    List AllowRule → ToolCall → Option (AllowRule × Option String)
  | [], _ => none
  | r :: rest, tc =>
      if r.tool ≠ tc.tool_name then matchAllow reMatch rest tc
      else
        match r.roles with
        | some rs =>
            if rs.any (fun x => tc.roles.contains x) then
              match validateConstraints reMatch r.constraints tc.arguments with
              | some e => some (r, some e)
              | none => some (r, none)
            else some (r, some "Actor role not permitted for this tool")
        | none =>
            match validateConstraints reMatch r.constraints tc.arguments with
            | some e => some (r, some e)
            | none => some (r, none)

/-- The size gate at the top of `evaluate` (`engine.py` lines 33-35):
a validate config exists, its `max_arg_bytes` is truthy, and the
arguments exceed it. -/
def sizeGateFires (P : Policy) (tc : ToolCall) : Bool :=
  match P.validate_cfg with
  | some v => v.max_arg_bytes ≠ 0 && (tc.arguments_size_bytes : Int) > v.max_arg_bytes
  | none => false

/-- Keys of the arguments absent from the constraint mapping
(`engine.py` line 67). -/
def unknownArgKeys (args : JKVs) (constraints : List (String × Constraint)) : List String :=
  args.keys.filter (fun k => !(constraints.map Prod.fst).contains k)

/-- Embeds `PolicyEngine.evaluate` (`engine.py` lines 32-100): size gate, deny
rules, allow rules (role check, constraint validation, unknown-args
check), then the default disposition. -/
def evaluate (reMatch : String → List Char → Option Bool) (P : Policy)
    (tc : ToolCall) : Decision :=
  if sizeGateFires P tc then
    { allowed := false
      reason :=
        "Arguments too large (>" ++
          (match P.validate_cfg with
           | some v => toString v.max_arg_bytes
           | none => "") ++ " bytes)"
      policy_id := P.policy_id
      remediation := some "Reduce arguments payload size."
      layer := some "validate" }
  else
    match matchDeny P.deny_rules tc with
    | some why =>
        { allowed := false, reason := why, policy_id := P.policy_id
          remediation := none, layer := some "authorize" }
    | none =>
        match matchAllow reMatch P.allow_rules tc with
        | some (rule, someErr) =>
            (match someErr with
             | some validation_error =>
                 { allowed := false, reason := validation_error
                   policy_id := P.policy_id
                   remediation := some "Fix tool arguments to satisfy policy constraints."
                   layer := some "validate" }
             | none =>
                 if (match P.validate_cfg with
                     | some v => v.reject_unknown_args
                     | none => false)
                     && !(unknownArgKeys tc.arguments rule.constraints).isEmpty then
                   { allowed := false
                     reason := "Unknown arguments not allowed: " ++
                       toString ((unknownArgKeys tc.arguments rule.constraints).mergeSort (· ≤ ·))
                     policy_id := P.policy_id
                     remediation := some "Remove unknown arguments."
                     layer := some "validate" }
                 else
                   { allowed := true, reason := "Matched allow rule"
                     policy_id := P.policy_id, remediation := none
                     layer := some "authorize" })
        | none =>
            if P.default = "allow" then
              { allowed := true, reason := "No matching rule; default allow"
                policy_id := P.policy_id, remediation := none
                layer := some "authorize" }
            else
              { allowed := false, reason := "No matching rule; default deny"
                policy_id := P.policy_id
                remediation := some "Request access via policy update."
                layer := some "authorize" }

/-! ## Pipeline, layers and enforcer (`pipeline/`, `layers/`, `enforcement/wrapper.py`)

Side effects of one `Pipeline.execute` run are made explicit: the
result type `Res` carries the returned-or-raised outcome, the shared
mutable `CallContext` as left by the run, the audit events emitted, and
the number of times the wrapped tool function was invoked.  A layer is
a function from the continuation (`next`) to a computation, exactly as
the closures in `layers/` are; `Pipeline.execute` folds the layer list
right-to-left around the tool-invocation thunk, so the first element of
the list is outermost. -/

/-- An exception crossing layer boundaries: `PolicyDeniedError(decision)`
(`decisions.py` lines 15-23) or an exception raised by the tool
function, carrying its rendered message. -/
inductive Exc where
  | policyDenied (d : Decision)
  | toolError (msg : String)
  deriving DecidableEq, Repr

/-- Python `str(e)` for the exceptions above; `PolicyDeniedError`
renders as `Denied: <reason>` (`decisions.py` line 22). -/
def excStr : Exc → String
  | .policyDenied d => "Denied: " ++ d.reason
  | .toolError m => m

/-- Embeds `CallContext` (`pipeline/context.py` lines 10-21).  `start_ns` and
the latency derived from it are not modelled (no layer under study
reads them: the audit layer looks up `meta["latency_ms"]`, which no
layer ever writes); `meta["rate_limit"]` telemetry is likewise write-only. -/
structure CallContext where
  tool_call : ToolCall
  policy_id : String
  decision : Option Decision
  tool_result : Option JValue
  layer : Option String
  deriving Repr

/-- One audit event as emitted by `AuditLogger.log` (`audit/logger.py`
lines 17-64), restricted to the fields the claims inspect. -/
structure AuditEvent where
  tool_name : String
  decision : String
  reason : String
  policy_id : String
  layer : Option String
  deriving DecidableEq, Repr

/-- Result of running a (partially composed) pipeline: outcome, final
shared context, audit events emitted, number of tool invocations. -/
structure Res where
  out : Except Exc JValue
  ctx : CallContext
  events : List AuditEvent
  toolCalls : Nat

/-- A pipeline computation: the shared context in, the effects out. -/
def M : Type := CallContext → Res

/-- A layer (`pipeline/context.py` line 24): receives the continuation. -/
def Layer : Type := M → M

/-- The innermost thunk of `Pipeline.execute` (`pipeline/pipeline.py`
lines 23-24): invoke the tool function once; it returns a value or
raises. -/
def forward (toolB : Except String JValue) : M := fun ctx =>
  match toolB with
  | .ok v => ⟨.ok v, ctx, [], 1⟩
  | .error m => ⟨.error (.toolError m), ctx, [], 1⟩

/-- Embeds `validate_layer` (`layers/validate.py` lines 10-31). -/
def validateLayer (pid : String) (cfg : Option ValidateConfig) : Layer := fun nxt ctx =>
  match cfg with
  | none => nxt ctx
  | some c =>
      if c.max_arg_bytes ≠ 0 then
        if (ctx.tool_call.arguments_size_bytes : Int) > c.max_arg_bytes then
          let d : Decision :=
            ⟨false, "Arguments too large (>" ++ toString c.max_arg_bytes ++ " bytes)",
              pid, some "Reduce arguments payload size.", some "validate"⟩
          ⟨.error (.policyDenied d),
            { ctx with decision := some d, layer := some "validate" }, [], 0⟩
        else nxt ctx
      else nxt ctx

/-- Python `tc.actor or "unknown"`. -/
def actorOr (tc : ToolCall) : String :=
  match tc.actor with
  | some a => if a = "" then "unknown" else a
  | none => "unknown"

/-- Python `str()` of a scalar JSON value (used only to render a
session id into the bucket key; composite session ids are not
modelled). -/
def pyStrScalar : JValue → String
  | .str s => String.mk s
  | .int n => toString n
  | .bool true => "True"
  | .bool false => "False"
  | .null => "None"
  | _ => "object"

/-- Python `(tc.client or {}).get("session_id", "unknown")`, rendered. -/
def sessionOr (tc : ToolCall) : String :=
  match tc.client with
  | some cl =>
      (match cl.get "session_id" with
       | some v => pyStrScalar v
       | none => "unknown")
  | none => "unknown"

/-- The `_key` helper of `rate_limit_layer` (`layers/rate_limit.py`
lines 14-27). -/
def rateKey (cfg : Option RateLimitConfig) (tc : ToolCall) : String :=
  match cfg with
  | none => "global"
  | some c =>
      if c.scope = "actor" then "actor:" ++ actorOr tc
      else if c.scope = "session" then "session:" ++ sessionOr tc
      else if c.scope = "tool" then "tool:" ++ tc.tool_name
      else if c.scope = "actor+tool" then
        "actor:" ++ actorOr tc ++ ":tool:" ++ tc.tool_name
      else "global"

/-- Embeds `rate_limit_layer` (`layers/rate_limit.py` lines 29-49).  The
limiter store `st` and the clock reading `now` are inputs of the run;
the updated store is dropped here (no claim under study spans two
`enforce` calls through the pipeline — the limiter itself is analysed
directly via `TokenBucket.take`/`limiterAllow`). -/
def rateLimitLayer (pid : String) (cfg : Option RateLimitConfig)
    (st : List (String × TokenBucket)) (now : ℚ) : Layer := fun nxt ctx =>
  match cfg with
  | none => nxt ctx
  | some c =>
      if !c.enabled || c.limit_per_minute = 0 then nxt ctx
      else
        match limiterAllow st (rateKey (some c) ctx.tool_call) c.limit_per_minute c.burst now with
        | (ok, _, _) =>
            if ok then nxt ctx
            else
              let d : Decision :=
                ⟨false, "Rate limit exceeded", pid, some "Wait and retry later.",
                  some "rate_limit"⟩
              ⟨.error (.policyDenied d),
                { ctx with decision := some d, layer := some "rate_limit" }, [], 0⟩

/-- Embeds `authorize_layer` (`layers/authorize.py` lines 10-19): evaluate,
record the decision and layer tag (`decision.layer or "authorize"`),
raise on deny. -/
def authorizeLayer (reMatch : String → List Char → Option Bool) (P : Policy) :
    Layer := fun nxt ctx =>
  let d := evaluate reMatch P ctx.tool_call
  let lay : String :=
    match d.layer with
    | some s => if s = "" then "authorize" else s
    | none => "authorize"
  let ctx2 := { ctx with decision := some d, layer := some lay }
  if !d.allowed then ⟨.error (.policyDenied d), ctx2, [], 0⟩
  else nxt ctx2

/-- Embeds `detect_attacks_layer` (`layers/detect_attacks.py` lines 26-50). -/
def detectAttacksLayer (pid : String) (cfg : Option DetectAttacksConfig) :
    Layer := fun nxt ctx =>
  match cfg with
  | none => nxt ctx
  | some c =>
      if !c.enabled then nxt ctx
      else
        let hay := collectStrings c.fields (.dict ctx.tool_call.arguments)
        if hay.any isSuspicious && c.on_detect = "deny" then
          let d : Decision :=
            ⟨false, "Potential injection/abuse pattern detected in arguments",
              pid, some "Remove suspicious patterns from arguments.",
              some "detect_attacks"⟩
          ⟨.error (.policyDenied d),
            { ctx with decision := some d, layer := some "detect_attacks" }, [], 0⟩
        else nxt ctx

/-- Embeds `redact_layer` (`layers/redact.py` lines 10-26): run the rest, then
redact the returned value when enabled; exceptions pass through. -/
def redactLayer (phoneSub : List Char → List Char) (cfg : Option RedactConfig) :
    Layer := fun nxt ctx =>
  let r := nxt ctx
  match r.out with
  | .error _ => r
  | .ok out =>
      match cfg with
      | none => r
      | some c =>
          if !c.enabled then r
          else
            let red := redact_value phoneSub (some c.deny_keys) c.pii_emails
              c.pii_phones c.max_string_len out
            ⟨.ok red, { r.ctx with tool_result := some red }, r.events, r.toolCalls⟩

/-- Embeds `audit_layer` (`layers/audit.py` lines 10-52): run the rest inside
a try/except; when a logger is bound and audit is enabled (config
absent counts as enabled) emit one event — decision `allow` on normal
return, `deny` when the context holds a denying decision, `error`
otherwise — and re-raise any exception. -/
def auditLayer (logger : Option Unit) (cfg : Option AuditConfig) : Layer := fun nxt ctx =>
  let r := nxt ctx
  let shouldLog : Bool :=
    logger.isSome && (match cfg with | none => true | some c => c.enabled)
  match r.out with
  | .ok _ =>
      if shouldLog then
        { out := r.out, ctx := r.ctx
          events := r.events ++
            [⟨r.ctx.tool_call.tool_name, "allow",
              (match r.ctx.decision with | some d => d.reason | none => "Allowed"),
              r.ctx.policy_id,
              (match r.ctx.decision with | some d => d.layer | none => r.ctx.layer)⟩]
          toolCalls := r.toolCalls }
      else r
  | .error e =>
      if shouldLog then
        { out := r.out, ctx := r.ctx
          events := r.events ++
            [⟨r.ctx.tool_call.tool_name,
              (match r.ctx.decision with
               | some d => if !d.allowed then "deny" else "error"
               | none => "error"),
              (match r.ctx.decision with | some d => d.reason | none => excStr e),
              r.ctx.policy_id,
              (match r.ctx.decision with | some d => d.layer | none => r.ctx.layer)⟩]
          toolCalls := r.toolCalls }
      else r

/-- Embeds `Pipeline.execute` composition (`pipeline/pipeline.py` lines 26-35):
`nxt = forward; for layer in reversed(layers): nxt = wrap(layer, nxt)`,
i.e. a right fold — the first listed layer ends up outermost. -/
def pipelineExecute (layers : List Layer) (fwd : M) : M :=
  layers.foldr (fun l acc => l acc) fwd

/-- Embeds `Enforcer.enforce` (`enforcement/wrapper.py` lines 30-43): build the
six layers in their listed order around the tool invocation and run
with a fresh context.  `logger` models whether an `AuditLogger` is
bound; `st`/`now` are the limiter store and the clock; `toolB` is the
behaviour of the tool function when invoked. -/
def enforceModel (phoneSub : List Char → List Char)
    (reMatch : String → List Char → Option Bool) (P : Policy)
    (logger : Option Unit) (st : List (String × TokenBucket)) (now : ℚ)
    (tc : ToolCall) (toolB : Except String JValue) : Res :=
  pipelineExecute
    [validateLayer P.policy_id P.validate_cfg,
     rateLimitLayer P.policy_id P.rate_limit st now,
     authorizeLayer reMatch P,
     detectAttacksLayer P.policy_id P.detect_attacks,
     redactLayer phoneSub P.redact,
     auditLayer logger P.audit]
    (forward toolB)
    ⟨tc, P.policy_id, none, none, none⟩

/-! ## Specification-side notions used to state the claims -/

/-- Stand-in for the unused phone substitution in concrete runs
(`pii_phones` is false everywhere under study). -/
def idStringFn : List Char → List Char := fun s => s

/-- Stand-in for `re.match` in concrete runs whose policies contain no
patterns. -/
def reMatchTrue : String → List Char → Option Bool := fun _ _ => some true

/-- Number of tool invocations the at-most-once claim prescribes for an
outcome: zero for a policy denial, one otherwise. -/
def countForOut : Except Exc JValue → Nat
  | .error (.policyDenied _) => 0
  | _ => 1

mutual
/-- The shape of a value, ignoring string contents: every string is
collapsed to the empty string, so equal shapes mean equal structure
(list lengths, tuple kind, dict keys and order, nesting, atoms). -/
def shapeJ : JValue → JValue
  | .null => .null
  | .bool b => .bool b
  | .int n => .int n
  | .str _ => .str []
  | .list xs => .list (shapeL xs)
  | .tuple xs => .tuple (shapeL xs)
  | .dict kvs => .dict (shapeKV kvs)

/-- Elementwise shape of a list. -/
def shapeL : JList → JList
  | .nil => .nil
  | .cons v tl => .cons (shapeJ v) (shapeL tl)

/-- Entrywise shape of a dict. -/
def shapeKV : JKVs → JKVs
  | .nil => .nil
  | .cons k v tl => .cons k (shapeJ v) (shapeKV tl)
end

mutual
/-- Every entry anywhere in the value whose key is deny-listed has a
string value (the hypothesis under which redaction preserves shape). -/
def denyValuesAreStrings (dks : List String) : JValue → Bool
  | .list xs => denyValuesAreStringsL dks xs
  | .tuple xs => denyValuesAreStringsL dks xs
  | .dict kvs => denyValuesAreStringsKV dks kvs
  | _ => true

/-- Elementwise check for lists/tuples. -/
def denyValuesAreStringsL (dks : List String) : JList → Bool
  | .nil => true
  | .cons v tl => denyValuesAreStrings dks v && denyValuesAreStringsL dks tl

/-- Entrywise check for dicts: a deny-listed key must carry a string
value; any other value is checked recursively. -/
def denyValuesAreStringsKV (dks : List String) : JKVs → Bool
  | .nil => true
  | .cons k v tl =>
      (if shouldRedactKey k dks then
        (match v with | .str _ => true | _ => false)
      else denyValuesAreStrings dks v) && denyValuesAreStringsKV dks tl
end

/-- Condition satisfaction in the words of the claim: every `(k, v)`
pair of the condition must satisfy `arguments[k] == v`, and a key
missing from the arguments counts as a mismatch. -/
def specCondSatisfied (args : JKVs) : JKVs → Bool
  | .nil => true
  | .cons k v tl =>
      (match args.get k with
       | some w => pyEq w v
       | none => false) && specCondSatisfied args tl

/-- Deny-rule matching in the words of the claim: equal tool name, and
the condition absent or satisfied per `specCondSatisfied`. -/
def specDenyMatches (r : DenyRule) (tc : ToolCall) : Bool :=
  r.tool == tc.tool_name &&
    (match r.condition with
     | none => true
     | some cond => specCondSatisfied tc.arguments cond)

/-- Deny-rule matching as the source implements it: equal tool name,
and the condition absent or satisfied per `condMatches` (a missing
argument key reads as `None`, so it satisfies a null-valued condition
entry). -/
def denyRuleFires (r : DenyRule) (tc : ToolCall) : Bool :=
  r.tool == tc.tool_name &&
    (match r.condition with
     | none => true
     | some cond => condMatches tc.arguments cond)

mutual
/-- Claim-side predicate for attack detection: every string that is the
direct dict value of a configured field name, anywhere in the value, is
free of attack patterns (strings occurring only inside lists are
unconstrained). -/
def cleanDirectFieldStrings (fields : List String) : JValue → Bool
  | .dict kvs => cleanDirectFieldStringsKV fields kvs
  | .list xs => cleanDirectFieldStringsL fields xs
  | _ => true

/-- Elementwise check for lists. -/
def cleanDirectFieldStringsL (fields : List String) : JList → Bool
  | .nil => true
  | .cons v tl =>
      cleanDirectFieldStrings fields v && cleanDirectFieldStringsL fields tl

/-- Entrywise check for dicts: a configured key with a string value must
be unsuspicious; every value is checked recursively. -/
def cleanDirectFieldStringsKV (fields : List String) : JKVs → Bool
  | .nil => true
  | .cons k v tl =>
      (match v with
       | .str s => !(fields.contains k) || !(isSuspicious s)
       | _ => true)
        && cleanDirectFieldStrings fields v && cleanDirectFieldStringsKV fields tl
end

/-! ## Concrete instances used by counterexamples and witnesses -/

/-- A default-deny policy with no rules and audit enabled (scenario S1
of the specification). -/
def pDefaultDeny : Policy :=
  ⟨"p1", "1", "deny", [], [], none, none, none, none, some ⟨true, false, false⟩⟩

/-- An invocation of tool `hello` with empty arguments. -/
def tcHello : ToolCall := ⟨"hello", .nil, none, [], none, none, true⟩

/-- An invocation of tool `t` with empty arguments. -/
def tcT : ToolCall := ⟨"t", .nil, none, [], none, none, true⟩

/-- A deny rule on tool `t` whose condition requires `x` to equal
`None`. -/
def denyRuleNullCond : DenyRule := ⟨"t", some (.cons "x" .null .nil), "r"⟩

/-- A default-allow policy whose only rule is `denyRuleNullCond`. -/
def pNullCond : Policy :=
  ⟨"p7", "1", "allow", [], [denyRuleNullCond], none, none, none, none, none⟩

/-- A deny rule on tool `t` with no condition. -/
def denyRuleT : DenyRule := ⟨"t", none, "blocked"⟩

/-- A policy carrying both an allow rule and an unconditional deny rule
for tool `t`. -/
def pDenyAndAllow : Policy :=
  ⟨"p3", "1", "allow", [⟨"t", [], none⟩], [denyRuleT], none, none, none, none, none⟩

/-- A default-allow policy whose validate config sets `max_arg_bytes`
to two billion (larger than the non-serializable sentinel). -/
def pBigLimit : Policy :=
  ⟨"p8", "1", "allow", [], [], some ⟨false, 2000000000⟩, none, none, none, none⟩

/-- A default-allow policy whose validate config sets `max_arg_bytes = 5`. -/
def pSmallLimit : Policy :=
  ⟨"p8w", "1", "allow", [], [], some ⟨false, 5⟩, none, none, none, none⟩

/-- An invocation whose arguments fail JSON encoding. -/
def tcNonSerializable : ToolCall := ⟨"t", .nil, none, [], none, none, false⟩

/-- The redaction-idempotence counterexample string: the first email is
replaced by a 16-character marker, pushing the length past
`max_string_len = 25`, so the second pass truncates away the trailing
`5` whose word-character status had blocked redaction of `a@b.comm`. -/
def vEmailPair : JValue := .str "e@f.gh a@b.comm5".toList

/-- A dict whose deny-listed key `password` carries a list value. -/
def vPasswordList : JValue :=
  .dict (.cons "password" (.list (.cons (.int 1) .nil)) .nil)

/-- A dict with a string under the deny-listed key and a list under an
ordinary key. -/
def vMixed : JValue :=
  .dict (.cons "password" (.str ['x'])
    (.cons "b" (.list (.cons (.int 2) (.cons (.str ['y']) .nil))) .nil))

/-- A single-entry dict whose key matches a default deny key
case-insensitively. -/
def kvsPassword : JKVs := .cons "Password" (.int 5) .nil

/-- Arguments placing the SQL-keyword string inside a list stored under
the configured field `query`. -/
def tcQueryList : ToolCall :=
  ⟨"search", .cons "query" (.list (.cons (.str "DROP TABLE users".toList) .nil)) .nil,
    none, [], none, none, true⟩

/-- A call context around `tcQueryList`. -/
def ctxQueryList : CallContext := ⟨tcQueryList, "p", none, none, none⟩

/-- A continuation that returns `7` having invoked the tool once. -/
def nextReturns7 : M := fun ctx => ⟨.ok (.int 7), ctx, [], 1⟩

/-! ## Theorems -/

set_option maxRecDepth 10000

/-- Helper: with both PII substitutions disabled, string redaction is
just truncation. -/
theorem redactStr_noPII (f : List Char → List Char) (m : Int) (s : List Char) :
    redactStr f false false m s = truncateStr m s := rfl

/-- Helper: truncation is idempotent for a non-negative limit (an
already-truncated string is cut back to the same prefix and re-marked). -/
theorem truncateStr_idem (m : Int) (hm : 0 ≤ m) (s : List Char) :
    truncateStr m (truncateStr m s) = truncateStr m s := by
  rcases Decidable.em (m ≠ 0 ∧ (s.length : Int) > m) with h | h
  · obtain ⟨hne, hgt⟩ := h
    have hle : m.toNat ≤ s.length := by omega
    have h1 : truncateStr m s = s.take m.toNat ++ truncationMarker := by
      rw [truncateStr, if_pos ⟨hne, hgt⟩, pySlice, if_pos hm]
    have hlen1 : (s.take m.toNat ++ truncationMarker).length = m.toNat + 3 := by
      simp [truncationMarker, List.length_take, Nat.min_eq_left hle]
    rw [h1, truncateStr, if_pos, pySlice, if_pos hm]
    · congr 1
      rw [List.take_append_of_le_length (by simp [List.length_take]; omega), List.take_take,
        Nat.min_self]
    · refine ⟨hne, ?_⟩
      rw [hlen1]
      omega
  · have hs : truncateStr m s = s := by rw [truncateStr, if_neg h]
    rw [hs]
    exact hs

mutual
/-- Helper: with PII substitutions disabled, redaction is idempotent on
values. -/
theorem redactGo_noPII_idem (f : List Char → List Char) (dks : List String)
    (m : Int) (hm : 0 ≤ m) : ∀ (v : JValue),
    redactGo f dks false false m (redactGo f dks false false m v)
      = redactGo f dks false false m v
  | .null => rfl
  | .bool _ => rfl
  | .int _ => rfl
  | .str s => by
      simp only [redactGo, redactStr_noPII]
      exact congrArg JValue.str (truncateStr_idem m hm s)
  | .list xs => congrArg JValue.list (redactList_noPII_idem f dks m hm xs)
  | .tuple xs => congrArg JValue.tuple (redactList_noPII_idem f dks m hm xs)
  | .dict kvs => congrArg JValue.dict (redactKVs_noPII_idem f dks m hm kvs)

/-- Helper: elementwise idempotence for lists. -/
theorem redactList_noPII_idem (f : List Char → List Char) (dks : List String)
    (m : Int) (hm : 0 ≤ m) : ∀ (xs : JList),
    redactList f dks false false m (redactList f dks false false m xs)
      = redactList f dks false false m xs
  | .nil => rfl
  | .cons v tl => by
      simp only [redactList]
      rw [redactGo_noPII_idem f dks m hm v, redactList_noPII_idem f dks m hm tl]

/-- Helper: entrywise idempotence for dicts (a deny-listed key carries
the marker string after one pass and keeps it on the next). -/
theorem redactKVs_noPII_idem (f : List Char → List Char) (dks : List String)
    (m : Int) (hm : 0 ≤ m) : ∀ (kvs : JKVs),
    redactKVs f dks false false m (redactKVs f dks false false m kvs)
      = redactKVs f dks false false m kvs
  | .nil => rfl
  | .cons k v tl => by
      by_cases hk : shouldRedactKey k dks
      · simp only [redactKVs, hk, if_true]
        rw [redactKVs_noPII_idem f dks m hm tl]
      · simp only [redactKVs, hk, if_false]
        rw [redactGo_noPII_idem f dks m hm v, redactKVs_noPII_idem f dks m hm tl]
end

/-- Claim C5, counterexample: with the default-style configuration
`pii_emails = true`, `pii_phones = false`, `max_string_len = 25`,
redacting `"e@f.gh a@b.comm5"` twice differs from redacting it once.
The first pass replaces `e@f.gh` with the 16-character email marker,
growing the string from 16 to 26 characters; the second pass therefore
re-truncates, dropping the trailing `5` — the very character whose
word-character status had protected `a@b.comm` — so content changes
beyond any stability of the truncation marker. -/
theorem C5_redact_not_idempotent :
    redact_value idStringFn none true false 25
        (redact_value idStringFn none true false 25 vEmailPair)
      ≠ redact_value idStringFn none true false 25 vEmailPair := by decide

/-- Claim C5, amended: with the PII regex substitutions disabled
(`pii_emails = false`, `pii_phones = false`) and a non-negative
`max_string_len`, `redact_value` is exactly idempotent for every
JSON-shaped value and every deny-key list — no truncation-marker
carve-out is needed. -/
theorem C5_redact_idempotent_noPII (f : List Char → List Char)
    (dk : Option (List String)) (m : Int) (hm : 0 ≤ m) (v : JValue) :
    redact_value f dk false false m (redact_value f dk false false m v)
      = redact_value f dk false false m v :=
  redactGo_noPII_idem f (effectiveDenyKeys dk) m hm v

/-- Witness for the amended C5 theorem at a concrete input. -/
theorem C5_redact_idempotent_noPII_witness :
    (0 : Int) ≤ 2048 ∧
    redact_value idStringFn none false false 2048
        (redact_value idStringFn none false false 2048 vMixed)
      = redact_value idStringFn none false false 2048 vMixed :=
  ⟨by norm_num, C5_redact_idempotent_noPII idStringFn none 2048 (by norm_num) vMixed⟩

mutual
/-- Helper: redaction preserves shape on every value whose deny-listed
entries all carry string values. -/
theorem shapeJ_redactGo (f : List Char → List Char) (dks : List String)
    (pe pp : Bool) (m : Int) : ∀ (v : JValue),
    denyValuesAreStrings dks v = true →
    shapeJ (redactGo f dks pe pp m v) = shapeJ v
  | .null, _ => rfl
  | .bool _, _ => rfl
  | .int _, _ => rfl
  | .str _, _ => rfl
  | .list xs, h => by
      simp only [denyValuesAreStrings] at h
      simp only [redactGo, shapeJ]
      rw [shapeL_redactList f dks pe pp m xs h]
  | .tuple xs, h => by
      simp only [denyValuesAreStrings] at h
      simp only [redactGo, shapeJ]
      rw [shapeL_redactList f dks pe pp m xs h]
  | .dict kvs, h => by
      simp only [denyValuesAreStrings] at h
      simp only [redactGo, shapeJ]
      rw [shapeKV_redactKVs f dks pe pp m kvs h]

/-- Helper: elementwise shape preservation for lists. -/
theorem shapeL_redactList (f : List Char → List Char) (dks : List String)
    (pe pp : Bool) (m : Int) : ∀ (xs : JList),
    denyValuesAreStringsL dks xs = true →
    shapeL (redactList f dks pe pp m xs) = shapeL xs
  | .nil, _ => rfl
  | .cons v tl, h => by
      simp only [denyValuesAreStringsL, Bool.and_eq_true] at h
      simp only [redactList, shapeL]
      rw [shapeJ_redactGo f dks pe pp m v h.1, shapeL_redactList f dks pe pp m tl h.2]

/-- Helper: entrywise shape preservation for dicts: a deny-listed key
carries a string by hypothesis, and its replacement is again a string. -/
theorem shapeKV_redactKVs (f : List Char → List Char) (dks : List String)
    (pe pp : Bool) (m : Int) : ∀ (kvs : JKVs),
    denyValuesAreStringsKV dks kvs = true →
    shapeKV (redactKVs f dks pe pp m kvs) = shapeKV kvs
  | .nil, _ => rfl
  | .cons k v tl, h => by
      simp only [denyValuesAreStringsKV, Bool.and_eq_true] at h
      obtain ⟨h1, h2⟩ := h
      by_cases hk : shouldRedactKey k dks
      · simp only [hk, if_true] at h1
        cases v with
        | str s =>
            simp only [redactKVs, hk, if_true, shapeKV, shapeJ]
            rw [shapeKV_redactKVs f dks pe pp m tl h2]
        | null => simp at h1
        | bool b => simp at h1
        | int n => simp at h1
        | list xs => simp at h1
        | tuple xs => simp at h1
        | dict kvs2 => simp at h1
      · simp only [hk, if_false] at h1
        simp only [redactKVs, hk, if_false, shapeKV]
        rw [shapeJ_redactGo f dks pe pp m v h1, shapeKV_redactKVs f dks pe pp m tl h2]
end

/-- Claim C6, counterexample: redaction does not preserve the shape of
every non-string value — the deny-listed key `password` carrying a list
value is rewritten to the string `"[REDACTED]"`, changing the nested
kind and depth. -/
theorem C6_shape_not_preserved :
    shapeJ (redact_value idStringFn none true false 2048 vPasswordList)
      ≠ shapeJ vPasswordList := by decide

/-- Claim C6, amended: redaction preserves shape (string contents
ignored) for every value in which each deny-listed key — under the
effective deny-key list — carries a string value; list lengths, tuple
kind, dict keys, nesting and non-string atoms are all unchanged. -/
theorem C6_shape_preserved (f : List Char → List Char)
    (dk : Option (List String)) (pe pp : Bool) (m : Int) (v : JValue)
    (h : denyValuesAreStrings (effectiveDenyKeys dk) v = true) :
    shapeJ (redact_value f dk pe pp m v) = shapeJ v :=
  shapeJ_redactGo f (effectiveDenyKeys dk) pe pp m v h

/-- Witness for the amended C6 theorem at a concrete input. -/
theorem C6_shape_preserved_witness :
    denyValuesAreStrings (effectiveDenyKeys none) vMixed = true ∧
    shapeJ (redact_value idStringFn none true false 2048 vMixed) = shapeJ vMixed :=
  ⟨by decide, C6_shape_preserved idStringFn none true false 2048 vMixed (by decide)⟩

/-- Helper: an entry whose key is deny-listed is rewritten to the
marker string wherever it occurs in the dict. -/
theorem redactKVs_mem_marker (f : List Char → List Char) (dks : List String)
    (pe pp : Bool) (m : Int) : ∀ (kvs : JKVs) (k : String) (v : JValue),
    (k, v) ∈ kvs.toList → shouldRedactKey k dks = true →
    (k, JValue.str redactedMarker) ∈ (redactKVs f dks pe pp m kvs).toList
  | .nil, k, v, h, _ => absurd h (List.not_mem_nil _)
  | .cons k0 v0 tl, k, v, h, hk => by
      simp only [JKVs.toList, List.mem_cons] at h
      rcases h with h | h
      · rw [Prod.mk.injEq] at h
        obtain ⟨hkk, -⟩ := h
        subst hkk
        simp [redactKVs, hk, JKVs.toList]
      · have ih := redactKVs_mem_marker f dks pe pp m tl k v h hk
        by_cases h0 : shouldRedactKey k0 dks
        · simp only [redactKVs, h0, if_true, JKVs.toList]
          exact List.mem_cons_of_mem _ ih
        · simp only [redactKVs, h0, if_false, JKVs.toList]
          exact List.mem_cons_of_mem _ ih

/-- Claim C9: passing `deny_keys = []` explicitly does not disable key
redaction — the falsy empty list is replaced by the default deny-key
list, so every entry whose key case-insensitively equals a default deny
key is still rewritten to `"[REDACTED]"`. -/
theorem C9_empty_deny_keys_use_defaults (f : List Char → List Char)
    (pe pp : Bool) (m : Int) (kvs : JKVs) (k : String) (v : JValue)
    (hmem : (k, v) ∈ kvs.toList)
    (hk : shouldRedactKey k DEFAULT_DENY_KEYS = true) :
    redact_value f (some []) pe pp m (.dict kvs)
        = .dict (redactKVs f DEFAULT_DENY_KEYS pe pp m kvs) ∧
    (k, JValue.str redactedMarker) ∈ (redactKVs f DEFAULT_DENY_KEYS pe pp m kvs).toList :=
  ⟨rfl, redactKVs_mem_marker f DEFAULT_DENY_KEYS pe pp m kvs k v hmem hk⟩

/-- Witness for C9 at a concrete input: the key `Password` (matching
the default deny key `password` case-insensitively) is redacted even
though the caller passed `deny_keys = []`. -/
theorem C9_empty_deny_keys_use_defaults_witness :
    redact_value idStringFn (some []) true false 2048 (.dict kvsPassword)
        = .dict (redactKVs idStringFn DEFAULT_DENY_KEYS true false 2048 kvsPassword) ∧
    (("Password" : String), JValue.str redactedMarker)
      ∈ (redactKVs idStringFn DEFAULT_DENY_KEYS true false 2048 kvsPassword).toList :=
  C9_empty_deny_keys_use_defaults idStringFn true false 2048 kvsPassword
    "Password" (.int 5) (by decide) (by decide)

/-- Helper: a failed `take` leaves the refreshed-but-unconsumed token
balance (below the requested amount), the same capacity and refill
rate, and `last_ts = now`. -/
theorem take_fail_state (b : TokenBucket) (t : ℚ) (rem : Int) (b2 : TokenBucket)
    (h : b.take t 1 = (false, rem, b2)) :
    b2.capacity = b.capacity ∧ b2.refill_per_sec = b.refill_per_sec ∧
    b2.last_ts = t ∧ b2.tokens < 1 := by
  simp only [TokenBucket.take] at h
  split_ifs at h with hc
  · simp at h
  · simp only [Prod.mk.injEq] at h
    obtain ⟨-, hb2⟩ := h
    obtain ⟨-, hb2⟩ := hb2
    subst hb2
    push_cast at hc
    exact ⟨rfl, rfl, rfl, not_le.mp hc⟩

/-- Claim C4, counterexample: a bucket with capacity 1, refill rate 1
token/sec and an empty balance (the state a fresh `limit_per_minute=60`,
`burst=1` bucket reaches right after its first, successful, `allow`)
refuses at `t = 0.9`, leaving balance `0.9`; yet at `t2 = 1.1`, although
`t2 < t + 1/refill_rate = 1.9`, the refill tops the balance up to 1 and
`take` succeeds — refusal does not persist for a full `1/refill_rate`
window. -/
theorem C4_rate_limit_window_violated :
    (TokenBucket.take ⟨1, 1, 0, 0⟩ (9/10) 1).1 = false ∧
    (TokenBucket.take ⟨1, 1, 0, 0⟩ (9/10) 1).2.2 = ⟨1, 1, 9/10, 9/10⟩ ∧
    ((11 : ℚ)/10 < 9/10 + 1/1) ∧
    (TokenBucket.take ⟨1, 1, 9/10, 9/10⟩ (11/10) 1).1 = true := by
  have e1 : TokenBucket.take ⟨1, 1, 0, 0⟩ (9/10) 1 = (false, 0, ⟨1, 1, 9/10, 9/10⟩) := by
    simp only [TokenBucket.take, pyInt]
    norm_num
  have e2 : TokenBucket.take ⟨1, 1, 9/10, 9/10⟩ (11/10) 1 = (true, 0, ⟨1, 1, 0, 11/10⟩) := by
    simp only [TokenBucket.take, pyInt]
    norm_num
  refine ⟨by rw [e1], by rw [e1], by norm_num, by rw [e2]⟩

/-- Claim C4, amended: if `take` fails at time `t` leaving the bucket
`b2` with balance `f = b2.tokens < 1`, then every `take` at any `t2`
with `t2 < t + (1 - f)/refill_rate` also fails (in particular no tokens
are manufactured); the window claimed by the specification,
`1/refill_rate`, is correct only when the balance at refusal is zero. -/
theorem C4_rate_limit_monotone (b b2 : TokenBucket) (t t2 : ℚ) (rem : Int)
    (hrefill : 0 < b.refill_per_sec)
    (hfail : b.take t 1 = (false, rem, b2))
    (hwin : t2 < t + (1 - b2.tokens) / b.refill_per_sec) :
    (b2.take t2 1).1 = false := by
  obtain ⟨-, hrefl2, hlast, htok1⟩ := take_fail_state b t rem b2 hfail
  simp only [TokenBucket.take]
  split_ifs with hc
  · exfalso
    push_cast at hc
    rw [hlast, hrefl2] at hc
    have hle2 : (1 : ℚ) ≤ b2.tokens + max 0 (t2 - t) * b.refill_per_sec :=
      le_trans hc (min_le_right _ _)
    rcases le_or_lt t2 t with h1 | h1
    · have hmax : max 0 (t2 - t) = 0 := max_eq_left (by linarith)
      rw [hmax, zero_mul, add_zero] at hle2
      linarith
    · have hmax : max 0 (t2 - t) = t2 - t := max_eq_right (by linarith)
      rw [hmax] at hle2
      have hdiv : t2 - t < (1 - b2.tokens) / b.refill_per_sec := by linarith
      have hmul := (lt_div_iff₀ hrefill).mp hdiv
      linarith
  · rfl

/-- Witness for the amended C4 theorem at a concrete input: an empty
bucket refuses at `t = 0` and still refuses at `t2 = 1/2 < (1-0)/1`. -/
theorem C4_rate_limit_monotone_witness :
    (TokenBucket.take ⟨1, 1, 0, 0⟩ (1/2) 1).1 = false := by
  have h0 : TokenBucket.take ⟨1, 1, 0, 0⟩ 0 1 = (false, 0, ⟨1, 1, 0, 0⟩) := by
    simp only [TokenBucket.take, pyInt]
    norm_num
  exact C4_rate_limit_monotone ⟨1, 1, 0, 0⟩ ⟨1, 1, 0, 0⟩ 0 (1/2) 0
    (by norm_num) h0 (by norm_num)

/-- Claim C8, counterexample: an invocation whose arguments fail JSON
encoding is sized at the finite sentinel `1_000_000_000`, not treated
as infinite — with `max_arg_bytes = 2_000_000_000 > 0` the size gate
does not fire and the default-allow policy admits the call with layer
`authorize`. -/
theorem C8_nonserializable_size_is_finite :
    tcNonSerializable.arguments_serializable = false ∧
    pBigLimit.validate_cfg.map ValidateConfig.max_arg_bytes = some 2000000000 ∧
    tcNonSerializable.arguments_size_bytes = 1000000000 ∧
    (evaluate reMatchTrue pBigLimit tcNonSerializable).allowed = true ∧
    (evaluate reMatchTrue pBigLimit tcNonSerializable).layer = some "authorize" :=
  ⟨rfl, rfl, rfl, by decide, by decide⟩

/-- Claim C8, amended: for an invocation whose arguments fail JSON
encoding, the size gate of `evaluate` denies with layer `validate`
whenever the validate config sets `0 < max_arg_bytes < 1_000_000_000`
(the sentinel value) — not for arbitrarily large finite limits. -/
theorem C8_nonserializable_denied_below_sentinel
    (rm : String → List Char → Option Bool) (P : Policy) (tc : ToolCall)
    (vc : ValidateConfig)
    (hser : tc.arguments_serializable = false)
    (hvc : P.validate_cfg = some vc)
    (hpos : 0 < vc.max_arg_bytes)
    (hlt : vc.max_arg_bytes < 1000000000) :
    evaluate rm P tc =
      ⟨false, "Arguments too large (>" ++ toString vc.max_arg_bytes ++ " bytes)",
        P.policy_id, some "Reduce arguments payload size.", some "validate"⟩ := by
  have hsize : tc.arguments_size_bytes = 1000000000 := by
    simp [ToolCall.arguments_size_bytes, hser]
  have hgate : sizeGateFires P tc = true := by
    simp only [sizeGateFires, hvc, hsize, Bool.and_eq_true, decide_eq_true_eq]
    constructor
    · omega
    · push_cast
      omega
  simp only [evaluate, hgate, if_true, hvc]

/-- Witness for the amended C8 theorem at a concrete input. -/
theorem C8_nonserializable_denied_below_sentinel_witness :
    tcNonSerializable.arguments_serializable = false ∧
    pSmallLimit.validate_cfg = some ⟨false, 5⟩ ∧
    (evaluate reMatchTrue pSmallLimit tcNonSerializable).allowed = false ∧
    (evaluate reMatchTrue pSmallLimit tcNonSerializable).layer = some "validate" :=
  ⟨rfl, rfl,
    by rw [C8_nonserializable_denied_below_sentinel reMatchTrue pSmallLimit
      tcNonSerializable ⟨false, 5⟩ rfl rfl (by norm_num) (by norm_num)],
    by rw [C8_nonserializable_denied_below_sentinel reMatchTrue pSmallLimit
      tcNonSerializable ⟨false, 5⟩ rfl rfl (by norm_num) (by norm_num)]⟩

/-- Helper: satisfaction in the claim sense (missing key = mismatch)
implies satisfaction in the source sense (missing key reads as null). -/
theorem specCond_imp_condMatches (args : JKVs) : ∀ (cond : JKVs),
    specCondSatisfied args cond = true → condMatches args cond = true
  | .nil, _ => rfl
  | .cons k v tl, h => by
      simp only [specCondSatisfied, Bool.and_eq_true] at h
      obtain ⟨h1, h2⟩ := h
      simp only [condMatches, Bool.and_eq_true]
      refine ⟨?_, specCond_imp_condMatches args tl h2⟩
      cases hget : args.get k with
      | some w =>
          rw [hget] at h1
          simpa [hget] using h1
      | none =>
          rw [hget] at h1
          simp at h1

/-- Helper: `_match_deny` returns the reason of the first rule that
fires in declaration order. -/
theorem matchDeny_eq_find (tc : ToolCall) : ∀ (rules : List DenyRule),
    matchDeny rules tc
      = (rules.find? (fun r => denyRuleFires r tc)).map DenyRule.reason
  | [] => rfl
  | r :: rest => by
      by_cases ht : r.tool = tc.tool_name
      · cases hcond : r.condition with
        | none =>
            have hfires : denyRuleFires r tc = true := by
              simp [denyRuleFires, ht, hcond]
            simp [matchDeny, ht, hcond, List.find?, hfires]
        | some c =>
            by_cases hm : condMatches tc.arguments c = true
            · have hfires : denyRuleFires r tc = true := by
                simp [denyRuleFires, ht, hcond, hm]
              simp [matchDeny, ht, hcond, hm, List.find?, hfires]
            · have hfires : denyRuleFires r tc = false := by
                simp only [denyRuleFires, hcond]
                simp [ht, Bool.eq_false_iff.mpr hm]
              simp [matchDeny, ht, hcond, hm, List.find?, hfires,
                matchDeny_eq_find tc rest]
      · have hfires : denyRuleFires r tc = false := by
          simp [denyRuleFires, ht]
        simp [matchDeny, ht, List.find?, hfires, matchDeny_eq_find tc rest]

/-- Claim C3: whenever some deny rule of the policy matches the
invocation in the claim sense (equal tool name; condition absent or
every pair satisfied by the arguments), `evaluate` returns a decision
with `allowed = false`, regardless of the allow rules. -/
theorem C3_deny_precedence (rm : String → List Char → Option Bool)
    (P : Policy) (tc : ToolCall) (r : DenyRule)
    (hmem : r ∈ P.deny_rules) (hmatch : specDenyMatches r tc = true) :
    (evaluate rm P tc).allowed = false := by
  have hfires : denyRuleFires r tc = true := by
    simp only [specDenyMatches, Bool.and_eq_true] at hmatch
    obtain ⟨ht, hcondSat⟩ := hmatch
    simp only [denyRuleFires, Bool.and_eq_true]
    refine ⟨ht, ?_⟩
    cases hcond : r.condition with
    | none => rfl
    | some c =>
        rw [hcond] at hcondSat
        exact specCond_imp_condMatches tc.arguments c hcondSat
  have hsome : ∃ why, matchDeny P.deny_rules tc = some why := by
    rw [matchDeny_eq_find tc P.deny_rules]
    have hfs : (P.deny_rules.find? (fun r => denyRuleFires r tc)).isSome :=
      List.find?_isSome.mpr ⟨r, hmem, hfires⟩
    obtain ⟨r0, hr0⟩ := Option.isSome_iff_exists.mp hfs
    exact ⟨r0.reason, by rw [hr0]; rfl⟩
  obtain ⟨why, hwhy⟩ := hsome
  by_cases hgate : sizeGateFires P tc = true
  · simp [evaluate, hgate]
  · have hg : sizeGateFires P tc = false := Bool.eq_false_iff.mpr hgate
    simp [evaluate, hg, hwhy]

/-- Witness for C3 at a concrete input: the unconditional deny rule on
tool `t` wins although an allow rule for `t` is present. -/
theorem C3_deny_precedence_witness :
    specDenyMatches denyRuleT tcT = true ∧
    (evaluate reMatchTrue pDenyAndAllow tcT).allowed = false :=
  ⟨by decide, C3_deny_precedence reMatchTrue pDenyAndAllow tcT denyRuleT
    (by simp [pDenyAndAllow]) (by decide)⟩

/-- Claim C7, counterexample: a deny rule whose condition maps `x` to
null fires for an invocation with no `x` argument — `dict.get` reads
the missing key as `None`, which equals the null condition value — so a
missing key does not always count as a mismatch, contradicting the
claimed matching semantics (which would leave this default-allow policy
allowing the call). -/
theorem C7_missing_key_matches_null_condition :
    specDenyMatches denyRuleNullCond tcT = false ∧
    matchDeny pNullCond.deny_rules tcT = some "r" ∧
    (evaluate reMatchTrue pNullCond tcT).allowed = false := by
  refine ⟨by decide, by decide, by decide⟩

/-- Claim C7, amended: a deny rule matches iff its tool equals the
invocation tool and each condition pair `(k, v)` satisfies
`arguments.get(k) == v`, where a missing key is read as `None` (so it
matches a null-valued condition entry and mismatches any other); the
first matching rule in declaration order wins, and — when the size gate
does not fire — its reason is returned as the decision with layer
`authorize`. -/
theorem C7_deny_match_semantics (rm : String → List Char → Option Bool)
    (P : Policy) (tc : ToolCall)
    (hgate : sizeGateFires P tc = false) :
    matchDeny P.deny_rules tc
        = (P.deny_rules.find? (fun r => denyRuleFires r tc)).map DenyRule.reason ∧
    ∀ why, matchDeny P.deny_rules tc = some why →
      evaluate rm P tc = ⟨false, why, P.policy_id, none, some "authorize"⟩ := by
  refine ⟨matchDeny_eq_find tc P.deny_rules, ?_⟩
  intro why hwhy
  simp [evaluate, hgate, hwhy]

/-- Witness for the amended C7 theorem at a concrete input. -/
theorem C7_deny_match_semantics_witness :
    evaluate reMatchTrue pDenyAndAllow tcT
      = ⟨false, "blocked", "p3", none, some "authorize"⟩ :=
  (C7_deny_match_semantics reMatchTrue pDenyAndAllow tcT (by decide)).2
    "blocked" (by decide)

mutual
/-- Helper: when every direct field string is clean, every collected
string is unsuspicious (collection only ever yields direct dict values
of configured keys). -/
theorem clean_imp_collect (fields : List String) : ∀ (v : JValue),
    cleanDirectFieldStrings fields v = true →
    ∀ s ∈ collectStrings fields v, isSuspicious s = false
  | .null, _ => by intro s hs; simp [collectStrings] at hs
  | .bool _, _ => by intro s hs; simp [collectStrings] at hs
  | .int _, _ => by intro s hs; simp [collectStrings] at hs
  | .str _, _ => by intro s hs; simp [collectStrings] at hs
  | .tuple _, _ => by intro s hs; simp [collectStrings] at hs
  | .list xs, h => by
      intro s hs
      simp only [cleanDirectFieldStrings] at h
      simp only [collectStrings] at hs
      exact cleanL_imp_collect fields xs h s hs
  | .dict kvs, h => by
      intro s hs
      simp only [cleanDirectFieldStrings] at h
      simp only [collectStrings] at hs
      exact cleanKV_imp_collect fields kvs h s hs

/-- Helper: list case of `clean_imp_collect`. -/
theorem cleanL_imp_collect (fields : List String) : ∀ (xs : JList),
    cleanDirectFieldStringsL fields xs = true →
    ∀ s ∈ collectList fields xs, isSuspicious s = false
  | .nil, _ => by intro s hs; simp [collectList] at hs
  | .cons v tl, h => by
      intro s hs
      simp only [cleanDirectFieldStringsL, Bool.and_eq_true] at h
      simp only [collectList, List.mem_append] at hs
      rcases hs with hs | hs
      · exact clean_imp_collect fields v h.1 s hs
      · exact cleanL_imp_collect fields tl h.2 s hs

/-- Helper: dict case of `clean_imp_collect`; the directly yielded
string is exactly the one the hypothesis constrains. -/
theorem cleanKV_imp_collect (fields : List String) : ∀ (kvs : JKVs),
    cleanDirectFieldStringsKV fields kvs = true →
    ∀ s ∈ collectKVs fields kvs, isSuspicious s = false
  | .nil, _ => by intro s hs; simp [collectKVs] at hs
  | .cons k v tl, h => by
      intro s hs
      simp only [cleanDirectFieldStringsKV, Bool.and_eq_true] at h
      obtain ⟨⟨h1, h2⟩, h3⟩ := h
      simp only [collectKVs] at hs
      cases v with
      | str s0 =>
          by_cases hc : fields.contains k
          · simp only [hc, if_true, collectStrings, List.append_nil,
              List.singleton_append, List.mem_cons] at hs
            rcases hs with rfl | hs
            · have h1p : k ∉ fields ∨ isSuspicious s = false := by simpa using h1
              rcases h1p with h1p | h1p
              · exact absurd (by simpa using hc) h1p
              · exact h1p
            · exact cleanKV_imp_collect fields tl h3 s hs
          · simp only [hc, if_false, collectStrings, List.append_nil,
              List.nil_append] at hs
            exact cleanKV_imp_collect fields tl h3 s hs
      | null =>
          simp only [collectStrings, List.append_nil, List.nil_append] at hs
          exact cleanKV_imp_collect fields tl h3 s hs
      | bool b =>
          simp only [collectStrings, List.append_nil, List.nil_append] at hs
          exact cleanKV_imp_collect fields tl h3 s hs
      | int n =>
          simp only [collectStrings, List.append_nil, List.nil_append] at hs
          exact cleanKV_imp_collect fields tl h3 s hs
      | tuple xs =>
          simp only [collectStrings, List.append_nil, List.nil_append] at hs
          exact cleanKV_imp_collect fields tl h3 s hs
      | list xs =>
          simp only [collectStrings, List.nil_append, List.mem_append] at hs
          simp only [cleanDirectFieldStrings] at h2
          rcases hs with hs | hs
          · exact cleanL_imp_collect fields xs h2 s hs
          · exact cleanKV_imp_collect fields tl h3 s hs
      | dict kvs2 =>
          simp only [collectStrings, List.nil_append, List.mem_append] at hs
          simp only [cleanDirectFieldStrings] at h2
          rcases hs with hs | hs
          · exact cleanKV_imp_collect fields kvs2 h2 s hs
          · exact cleanKV_imp_collect fields tl h3 s hs
end

/-- Claim C10: `detect_attacks_layer` only scans strings that are the
direct dict value of a configured field name; if every such string is
free of attack patterns — in particular when all attack-pattern strings
occur only inside lists — the layer passes straight through to `next`
and never denies, even with `enabled = true` and `on_detect = "deny"`. -/
theorem C10_listed_strings_not_scanned (pid : String) (fields : List String)
    (nxt : M) (ctx : CallContext)
    (h : cleanDirectFieldStrings fields (.dict ctx.tool_call.arguments) = true) :
    detectAttacksLayer pid (some ⟨true, "deny", fields⟩) nxt ctx = nxt ctx := by
  have hall := clean_imp_collect fields (.dict ctx.tool_call.arguments) h
  have hany : (collectStrings fields (.dict ctx.tool_call.arguments)).any isSuspicious
      = false := by
    rw [List.any_eq_false]
    intro s hs
    simp [hall s hs]
  simp [detectAttacksLayer, hany]

/-- Witness for C10 at a concrete input: the arguments store
`"DROP TABLE users"` — a string the SQL-keyword pattern matches —
inside a list under the configured field `query`, and the layer still
passes through. -/
theorem C10_listed_strings_not_scanned_witness :
    cleanDirectFieldStrings ["query"] (.dict ctxQueryList.tool_call.arguments) = true ∧
    isSuspicious "DROP TABLE users".toList = true ∧
    detectAttacksLayer "p" (some ⟨true, "deny", ["query"]⟩) nextReturns7 ctxQueryList
      = nextReturns7 ctxQueryList :=
  ⟨by decide, by decide,
    C10_listed_strings_not_scanned "p" ["query"] nextReturns7 ctxQueryList (by decide)⟩

/-- Helper: the tool-invocation thunk registers exactly one call and
never raises a policy denial. -/
theorem forward_count (tb : Except String JValue) :
    ∀ ctx, (forward tb ctx).toolCalls = countForOut (forward tb ctx).out := by
  intro ctx
  cases tb <;> rfl

/-- Helper: the validate layer preserves the call-count invariant. -/
theorem validateLayer_count (pid : String) (cfg : Option ValidateConfig) (nxt : M)
    (h : ∀ ctx, (nxt ctx).toolCalls = countForOut (nxt ctx).out) :
    ∀ ctx, ((validateLayer pid cfg) nxt ctx).toolCalls
      = countForOut ((validateLayer pid cfg) nxt ctx).out := by
  intro ctx
  cases cfg with
  | none => exact h ctx
  | some c =>
      simp only [validateLayer]
      split_ifs
      · rfl
      · exact h ctx
      · exact h ctx

/-- Helper: the rate-limit layer preserves the call-count invariant. -/
theorem rateLimitLayer_count (pid : String) (cfg : Option RateLimitConfig)
    (st : List (String × TokenBucket)) (now : ℚ) (nxt : M)
    (h : ∀ ctx, (nxt ctx).toolCalls = countForOut (nxt ctx).out) :
    ∀ ctx, ((rateLimitLayer pid cfg st now) nxt ctx).toolCalls
      = countForOut ((rateLimitLayer pid cfg st now) nxt ctx).out := by
  intro ctx
  cases cfg with
  | none => exact h ctx
  | some c =>
      simp only [rateLimitLayer]
      split_ifs
      · exact h ctx
      · exact h ctx
      · rfl

/-- Helper: the authorize layer preserves the call-count invariant. -/
theorem authorizeLayer_count (rm : String → List Char → Option Bool) (P : Policy)
    (nxt : M) (h : ∀ ctx, (nxt ctx).toolCalls = countForOut (nxt ctx).out) :
    ∀ ctx, ((authorizeLayer rm P) nxt ctx).toolCalls
      = countForOut ((authorizeLayer rm P) nxt ctx).out := by
  intro ctx
  simp only [authorizeLayer]
  split_ifs
  · rfl
  · exact h _

/-- Helper: the attack-detection layer preserves the call-count
invariant. -/
theorem detectAttacksLayer_count (pid : String) (cfg : Option DetectAttacksConfig)
    (nxt : M) (h : ∀ ctx, (nxt ctx).toolCalls = countForOut (nxt ctx).out) :
    ∀ ctx, ((detectAttacksLayer pid cfg) nxt ctx).toolCalls
      = countForOut ((detectAttacksLayer pid cfg) nxt ctx).out := by
  intro ctx
  cases cfg with
  | none => exact h ctx
  | some c =>
      simp only [detectAttacksLayer]
      split_ifs
      · exact h ctx
      · rfl
      · exact h ctx

/-- Helper: the redact layer preserves the call-count invariant (it
rewrites a successful result but neither invokes the tool nor turns an
outcome into a denial). -/
theorem redactLayer_count (f : List Char → List Char) (cfg : Option RedactConfig)
    (nxt : M) (h : ∀ ctx, (nxt ctx).toolCalls = countForOut (nxt ctx).out) :
    ∀ ctx, ((redactLayer f cfg) nxt ctx).toolCalls
      = countForOut ((redactLayer f cfg) nxt ctx).out := by
  intro ctx
  have hh := h ctx
  simp only [redactLayer]
  rcases hr : nxt ctx with ⟨out, ctx2, evs, n⟩
  rw [hr] at hh
  cases out with
  | error e => simpa using hh
  | ok v =>
      cases cfg with
      | none => simpa using hh
      | some c =>
          dsimp only
          split_ifs
          · simpa using hh
          · simpa using hh

/-- Helper: the audit layer preserves the call-count invariant (it
appends events and re-raises, leaving outcome and count unchanged). -/
theorem auditLayer_count (lg : Option Unit) (cfg : Option AuditConfig)
    (nxt : M) (h : ∀ ctx, (nxt ctx).toolCalls = countForOut (nxt ctx).out) :
    ∀ ctx, ((auditLayer lg cfg) nxt ctx).toolCalls
      = countForOut ((auditLayer lg cfg) nxt ctx).out := by
  intro ctx
  have hh := h ctx
  simp only [auditLayer]
  rcases hr : nxt ctx with ⟨out, ctx2, evs, n⟩
  rw [hr] at hh
  cases out with
  | error e =>
      dsimp only
      split_ifs
      · simpa using hh
      · simpa using hh
  | ok v =>
      dsimp only
      split_ifs
      · simpa using hh
      · simpa using hh

/-- Claim C2: across the standard six-layer chain of
`Enforcer.enforce`, the tool function is invoked exactly
`countForOut` times — zero when a policy denial is raised (which only
pre-invocation layers do) and exactly once otherwise (including when
the tool itself raises); in particular it is never invoked twice. -/
theorem C2_tool_invoked_at_most_once (f : List Char → List Char)
    (rm : String → List Char → Option Bool) (P : Policy) (lg : Option Unit)
    (st : List (String × TokenBucket)) (now : ℚ) (tc : ToolCall)
    (tb : Except String JValue) :
    (enforceModel f rm P lg st now tc tb).toolCalls
      = countForOut (enforceModel f rm P lg st now tc tb).out := by
  have h0 := forward_count tb
  have h1 := auditLayer_count lg P.audit _ h0
  have h2 := redactLayer_count f P.redact _ h1
  have h3 := detectAttacksLayer_count P.policy_id P.detect_attacks _ h2
  have h4 := authorizeLayer_count rm P _ h3
  have h5 := rateLimitLayer_count P.policy_id P.rate_limit st now _ h4
  have h6 := validateLayer_count P.policy_id P.validate_cfg _ h5
  exact h6 ⟨tc, P.policy_id, none, none, none⟩

/-- Claim C1: a pre-invocation denial is not audited.  With an audit
logger bound and audit enabled, the default-deny policy denies the call
at the authorize layer, yet the run emits no audit event at all: the
composed chain places the audit layer innermost (wrapper.py lists it
last and `Pipeline.execute` makes the first listed layer outermost), so
denials raised by validate/rate-limit/authorize/detect-attacks never
cross it, and its deny-logging branch cannot fire for them. -/
theorem C1_denied_call_emits_no_audit_event :
    (enforceModel idStringFn reMatchTrue pDefaultDeny (some ()) [] 0 tcHello
        (.ok (.int 7))).events = [] ∧
    (enforceModel idStringFn reMatchTrue pDefaultDeny (some ()) [] 0 tcHello
        (.ok (.int 7))).out =
      .error (.policyDenied ⟨false, "No matching rule; default deny", "p1",
        some "Request access via policy update.", some "authorize"⟩) :=
  ⟨rfl, rfl⟩
